import Mathlib

/-!
# Verification of the lo_event client-side event-delivery pipeline

Shallow embedding, in Lean 4, of the parts of the `lo_event` repository
needed to settle the frozen claims: the reconnect backoff of the
websocket transport, the disabler policy gate, the `once` decorator, the
queue machinery (persistent/indexeddb backend and its dequeue loop), the
metadata deep-merge, the initialization state machine, the storage
capability, and event timestamping.

JavaScript numbers that only ever hold integers are modelled as `Int` or
`Nat`; `null`-able numbers as `Option Int`; fallible code as `Except`;
the single-threaded cooperative scheduling of the JS event loop as
explicit interleaved traces of labelled steps.
-/

namespace LoEvent

/-! ## Websocket transport backoff (src/websocketLogger.ts) -/

/-- `calculateExponentialBackoff` from `websocketLogger.ts`:
`Math.min(1000 * Math.pow(2, n), 1000 * 60 * 15)`.  The failure count
`n` is a non-negative integer, and `2^n` is exact in JS floats for all
reachable values below the cap, so `Nat` models it faithfully. -/
def calculateExponentialBackoff (n : Nat) : Nat :=
  min (1000 * 2 ^ n) (1000 * 60 * 15)

/-! ## Disabler (src/disabler.ts) -/

/-- `EVENT_ACTION` from `disabler.ts`. -/
inductive EventAction where
  | TRANSMIT
  | MAINTAIN
  | DROP
deriving DecidableEq, Repr

/-- `TIME_LIMIT.PERMANENT` from `disabler.ts` (the number `-1`). -/
def PERMANENT : Int := -1

/-- The disabler's persisted/in-memory record `{action, expiration}`
(`DisablerState` in `disabler.ts`); `expiration : number | null` becomes
`Option Int`. -/
structure DisablerState where
  action : EventAction
  expiration : Option Int
deriving DecidableEq, Repr

/-- `DEFAULTS` from `disabler.ts`: `{action: TRANSMIT, expiration: null}`. -/
def DISABLER_DEFAULTS : DisablerState := ⟨EventAction.TRANSMIT, none⟩

/-- The JS comparison `now < expiration` where `expiration` may be
`null`: `null` coerces to `0` under `<`. -/
def expirationValue (e : Option Int) : Int := e.getD 0

/-- Result of one `disabler.retry()` call: the returned boolean, the new
in-memory `{action, expiration}`, the new persisted record, the number
of `storage.set` calls performed, and the (virtual) time at which the
call returns (`retry` awaits `delay(expiration - now)` when
`now < expiration`). -/
structure RetryResult where
  returned : Bool
  mem : DisablerState
  stored : Option DisablerState
  writes : Nat
  timeAfter : Int
deriving DecidableEq, Repr

/-- `retry()` from `disabler.ts`, lines 110-133.  `mem` is the module's
in-memory `{action, expiration}`, `stored` the record currently under
the `disablerState` storage key (`none` = absent), `now` the value of
`Date.now()` at entry.
1. If `expiration === TIME_LIMIT.PERMANENT`, return `false` (nothing
   is mutated).
2. Otherwise, if `now < expiration`, await `delay(expiration - now)`.
3. Reset `action`/`expiration` to the defaults and call `storage.set`
   only when the stored record differs from the reset value. -/
def retry (mem : DisablerState) (stored : Option DisablerState) (now : Int) :
    RetryResult :=
  if mem.expiration = some PERMANENT then
    ⟨false, mem, stored, 0, now⟩
  else
    let ev := expirationValue mem.expiration
    let t2 := if now < ev then now + (ev - now) else now
    let reset := DISABLER_DEFAULTS
    let needWrite :=
      match stored with
      | none => true
      | some cv => cv ≠ reset
    ⟨true, reset, if needWrite then some reset else stored,
      if needWrite then 1 else 0, t2⟩

/-- `storeEvents()` from `disabler.ts`: `action !== EVENT_ACTION.DROP`. -/
def storeEvents (mem : DisablerState) : Bool :=
  mem.action ≠ EventAction.DROP

/-- `handleBlockError` from `disabler.ts`: given a block error with
`timeLimit` and `action`, set the in-memory state and persist it
immediately.  `timeLimit = PERMANENT` maps to `expiration = PERMANENT`;
otherwise `expiration = now + timeLimit`. -/
def handleBlockError (timeLimit : Int) (act : EventAction) (now : Int) :
    DisablerState :=
  if timeLimit = PERMANENT then ⟨act, some PERMANENT⟩
  else ⟨act, some (now + timeLimit)⟩

/-! ## The `once` decorator (src/util.ts, lines 317-328)

`once(func)` returns a wrapper with a captured `run` flag: the first
call sets the flag and calls `func`; every later call throws. -/

/-- One call of a `once`-wrapped function.  The state is the captured
`run` flag; the result is the new flag plus either the wrapped
function's value or the thrown error message. -/
def onceCall (f : α → β) (run : Bool) (x : α) : Bool × Except String β :=
  if !run then
    (true, Except.ok (f x))
  else
    (run, Except.error
      "Error! Function was called more than once! This should never happen")

/-! ## Persistent queue backend (src/indexeddbQueue.ts)

The backend funnels all enqueue/dequeue requests through an internal
operation queue (`dbOperationQueue` plus the `nextDBOperationPromise`
direct hand-off); the processing loop (`startProcessing`) awaits
`dbOperationDispatch[operation.operation](operation)` one operation at
a time.  Crucially, `addItemToDB` and `nextItemFromDB` contain no
`await`: each issues an IndexedDB request, installs its success/error
callbacks, and returns, so the `await` in `startProcessing` completes
as soon as the synchronous dispatch body has run — before the
transaction's callbacks have fired.  Dispatching an operation and
running its IndexedDB callbacks are therefore separate event-loop
steps, and the model keeps them separate.  Observable state:

* `opsQ` — the FIFO of not-yet-dispatched operation records.  When the
  processing loop is parked on `nextDBOperationPromise` the JS code
  hands a new record to it directly; since the loop only parks when
  `dbOperationQueue` is empty, that hand-off is the same as appending
  to the (empty) list and letting the loop take the head, so we keep a
  single list.
* `tasks` — IndexedDB transactions that a dispatch has created but
  whose success callbacks have not yet run.  Same-store readwrite
  transactions run in creation order, so this is a FIFO as well.
* `store` — the rows of the object store, in ascending key order (the
  auto-increment key makes insertion order = key order).
* `parked` — whether `nextItemPromise` is non-null.  It is set only
  inside the cursor callback of a read transaction that found no rows
  (`nextItemFromDB` lines 169-174), never at dispatch time.
* `pendingDeq` — whether the consumer holds a not-yet-resolved promise
  returned by `dequeue()` (the single-consumer dequeue loop never calls
  `dequeue()` again before the previous one resolved).
* `delivered` — the sequence of items the consumer's dequeue promises
  resolved with, in order.
* `writes` — how many `objectStore.add` calls have run (`addItemToDB`
  line 130).
-/

/-- An operation record of the persistent backend
(`DBOperation` in `indexeddbQueue.ts`): an enqueue carrying its payload,
or a dequeue carrying its resolver. -/
inductive DbOp (α : Type) where
  | enqOp (x : α)
  | deqOp
deriving DecidableEq, Repr

/-- An IndexedDB transaction whose success callbacks are still
pending: the cursor read created by dispatching a dequeue
(`nextItemFromDB` lines 151-153), or the `objectStore.add` created by
dispatching an enqueue that found no parked resolver (`addItemToDB`
lines 127-130). -/
inductive IdbTask (α : Type) where
  | readTask
  | addTask (x : α)
deriving DecidableEq, Repr

/-- Observable state of one persistent-backend `Queue` plus its single
consumer. -/
structure IdbState (α : Type) where
  opsQ : List (DbOp α)
  tasks : List (IdbTask α)
  store : List α
  parked : Bool
  pendingDeq : Bool
  delivered : List α
  writes : Nat
deriving DecidableEq, Repr

/-- Initial state: fresh `Queue` (empty operation queue, no pending
transactions, empty object store, no parked resolver) with its
consumer idle. -/
def idbInit (α : Type) : IdbState α := ⟨[], [], [], false, false, [], 0⟩

/-- The interleaving alphabet of the persistent backend:
`enq x` — a producer calls `enqueue(x)` (appends an enqueue record,
`enqueue` lines 232-239);
`reqDeq` — the consumer loop calls `dequeue()` (appends a dequeue
record, `dequeue` lines 245-251); only legal while no earlier dequeue
promise is outstanding (single consumer);
`dispatch` — the processing loop runs the synchronous body of the next
operation's dispatch (`startProcessing` calling `addItemToDB` /
`nextItemFromDB`, which issue a transaction and return);
`idbTask` — the oldest pending IndexedDB transaction's success
callbacks run. -/
inductive IdbLabel (α : Type) where
  | enq (x : α)
  | reqDeq
  | dispatch
  | idbTask
deriving DecidableEq, Repr

/-- The synchronous body of dispatching one operation record:
* enqueue record (`addItemToDB` lines 119-143): if `nextItemPromise`
  is parked, resolve it with the payload directly and return — no
  transaction is created; otherwise create the `objectStore.add`
  transaction (its callbacks run later).
* dequeue record (`nextItemFromDB` lines 148-181): create the
  read-cursor transaction (its callbacks run later); nothing is parked
  or resolved yet. -/
def idbDispatch (s : IdbState α) (op : DbOp α) (rest : List (DbOp α)) :
    IdbState α :=
  match op with
  | DbOp.enqOp x =>
      if s.parked then
        { s with opsQ := rest, parked := false, pendingDeq := false,
                 delivered := s.delivered ++ [x] }
      else
        { s with opsQ := rest, tasks := s.tasks ++ [IdbTask.addTask x] }
  | DbOp.deqOp =>
      { s with opsQ := rest, tasks := s.tasks ++ [IdbTask.readTask] }

/-- The success callbacks of the oldest pending transaction:
* add transaction: the row is written to the store (`request.onsuccess`
  after `objectStore.add`, line 130-134).
* read transaction (`nextItemFromDB` lines 155-174): if the cursor
  finds a lowest-keyed row, delete it and resolve the dequeue with its
  payload; if the store is empty, park `nextItemPromise` (the dequeue's
  outer promise resolves with the still-pending inner promise, so the
  consumer keeps waiting). -/
def idbRunTask (s : IdbState α) (t : IdbTask α) (rest : List (IdbTask α)) :
    IdbState α :=
  match t with
  | IdbTask.addTask x =>
      { s with tasks := rest, store := s.store ++ [x],
               writes := s.writes + 1 }
  | IdbTask.readTask =>
      match s.store with
      | [] => { s with tasks := rest, parked := true }
      | h :: st =>
          { s with tasks := rest, store := st, pendingDeq := false,
                   delivered := s.delivered ++ [h] }

/-- One labelled step of the persistent backend; `none` when the label
is not enabled in this state. -/
def idbStep (s : IdbState α) : IdbLabel α → Option (IdbState α)
  | IdbLabel.enq x => some { s with opsQ := s.opsQ ++ [DbOp.enqOp x] }
  | IdbLabel.reqDeq =>
      if s.pendingDeq then none
      else some { s with opsQ := s.opsQ ++ [DbOp.deqOp],
                         pendingDeq := true }
  | IdbLabel.dispatch =>
      match s.opsQ with
      | [] => none
      | op :: rest => some (idbDispatch s op rest)
  | IdbLabel.idbTask =>
      match s.tasks with
      | [] => none
      | t :: rest => some (idbRunTask s t rest)

/-- Run a trace of labelled steps from a given state. -/
def idbRun (s : IdbState α) : List (IdbLabel α) → Option (IdbState α)
  | [] => some s
  | l :: ls => (idbStep s l).bind (fun s2 => idbRun s2 ls)

/-- The items a trace enqueues, in order. -/
def enqueuedOf : List (IdbLabel α) → List α
  | [] => []
  | IdbLabel.enq x :: ls => x :: enqueuedOf ls
  | _ :: ls => enqueuedOf ls

/-! ## The dequeue loop (queue.js / part_002, `startDequeueLoop`)

One iteration of the `while (true)` loop awaits `shouldDequeue()`
(treating a raised fault or a `false` return as a permanent stop,
lines 79-86), then awaits `this.queue.dequeue()`, and, when the item is
non-null, awaits `onDequeue(item)` inside a try/catch that reports the
fault via `onError` and continues (lines 88-97).  We model a (finite
portion of a) run of the loop by the sequence of per-iteration
environment outcomes. -/

/-- Environment outcomes for one loop iteration: what `shouldDequeue()`
did, what `dequeue()` resolved with, and what `onDequeue(item)` would
do (consulted only when the item is non-null). -/
structure LoopIter (α : Type) where
  should : Except String Bool
  item : Option α
  handler : Except String Unit
deriving Repr

/-- Observable log of a (finite portion of a) dequeue-loop run: the
items passed to `onDequeue` in order, the `onError` reports in order,
and whether the loop exited permanently within these iterations. -/
structure LoopLog (α : Type) where
  attempted : List α
  errors : List String
  stopped : Bool
deriving DecidableEq, Repr

/-- The message reported when `shouldDequeue` stops the loop. -/
def stopMsg : String := "QUEUE ERROR: Not allowed to start dequeueing"

/-- The message reported when `onDequeue` raises on an item. -/
def itemFaultMsg : String := "QUEUE ERROR: Unable to process item"

/-- The body of `startDequeueLoop`'s `while (true)` loop (part_002
lines 70-97), run over a finite list of iteration outcomes.  A
`shouldDequeue` fault or `false` reports and exits for good; a handler
fault on a non-null item reports and continues; a null item is skipped
without calling `onDequeue`. -/
def runLoopIters : List (LoopIter α) → LoopLog α
  | [] => ⟨[], [], false⟩
  | it :: rest =>
    match it.should with
    | Except.error _ => ⟨[], [stopMsg], true⟩
    | Except.ok false => ⟨[], [stopMsg], true⟩
    | Except.ok true =>
      match it.item with
      | none => runLoopIters rest
      | some a =>
        let l := runLoopIters rest
        match it.handler with
        | Except.ok _ => ⟨a :: l.attempted, l.errors, l.stopped⟩
        | Except.error _ =>
            ⟨a :: l.attempted, itemFaultMsg :: l.errors, l.stopped⟩

/-- The full `startDequeueLoop` including the initialization phase
(part_002 lines 60-68): a raised fault or `false` from `initialize()`
reports and returns without entering the loop. -/
def runDequeueLoop (ini : Except String Bool) (iters : List (LoopIter α)) :
    LoopLog α :=
  match ini with
  | Except.error _ =>
      ⟨[], ["QUEUE ERROR: Failure to initialize before starting dequeue loop"],
        true⟩
  | Except.ok false =>
      ⟨[], ["QUEUE ERROR: Failure to initialize before starting dequeue loop"],
        true⟩
  | Except.ok true => runLoopIters iters

/-! ## JSON values and the metadata deep merge (src/util.ts)

`mergeDictionary` (lines 179-191) iterates the source's enumerable own
keys; when both values pass the JS test
`typeof v === 'object' && v !== null` (which arrays also pass) it
recurses, otherwise it assigns.  We embed JSON values; JS arrays are
lists whose enumerable own keys are their indices `"0"`, `"1"`, ….
Array `length` and non-index expando properties on arrays are not
JSON-representable (and are dropped by the `JSON.stringify` every
merged payload immediately goes through in `lockFieldsAsync`), so they
are outside the modelled value domain. -/

/-- JSON-serializable values. -/
inductive JVal where
  | jnull
  | jbool (b : Bool)
  | jnum (n : Int)
  | jstr (s : String)
  | jarr (xs : List JVal)
  | jobj (kvs : List (String × JVal))
deriving Repr

/-- Decidable equality for `JVal` (the nested induction is written by
hand; the automatic derivation does not support nested inductives). -/
def JVal.decEq : (a b : JVal) → Decidable (a = b)
  | JVal.jnull, JVal.jnull => isTrue rfl
  | JVal.jbool a, JVal.jbool b =>
      if h : a = b then isTrue (by rw [h]) else
        isFalse (by intro hh; cases hh; exact h rfl)
  | JVal.jnum a, JVal.jnum b =>
      if h : a = b then isTrue (by rw [h]) else
        isFalse (by intro hh; cases hh; exact h rfl)
  | JVal.jstr a, JVal.jstr b =>
      if h : a = b then isTrue (by rw [h]) else
        isFalse (by intro hh; cases hh; exact h rfl)
  | JVal.jarr xs, JVal.jarr ys =>
      match decEqList xs ys with
      | isTrue h => isTrue (by rw [h])
      | isFalse h => isFalse (by intro hh; cases hh; exact h rfl)
  | JVal.jobj xs, JVal.jobj ys =>
      match decEqKVList xs ys with
      | isTrue h => isTrue (by rw [h])
      | isFalse h => isFalse (by intro hh; cases hh; exact h rfl)
  | JVal.jnull, JVal.jbool _ | JVal.jnull, JVal.jnum _
  | JVal.jnull, JVal.jstr _ | JVal.jnull, JVal.jarr _
  | JVal.jnull, JVal.jobj _
  | JVal.jbool _, JVal.jnull | JVal.jbool _, JVal.jnum _
  | JVal.jbool _, JVal.jstr _ | JVal.jbool _, JVal.jarr _
  | JVal.jbool _, JVal.jobj _
  | JVal.jnum _, JVal.jnull | JVal.jnum _, JVal.jbool _
  | JVal.jnum _, JVal.jstr _ | JVal.jnum _, JVal.jarr _
  | JVal.jnum _, JVal.jobj _
  | JVal.jstr _, JVal.jnull | JVal.jstr _, JVal.jbool _
  | JVal.jstr _, JVal.jnum _ | JVal.jstr _, JVal.jarr _
  | JVal.jstr _, JVal.jobj _
  | JVal.jarr _, JVal.jnull | JVal.jarr _, JVal.jbool _
  | JVal.jarr _, JVal.jnum _ | JVal.jarr _, JVal.jstr _
  | JVal.jarr _, JVal.jobj _
  | JVal.jobj _, JVal.jnull | JVal.jobj _, JVal.jbool _
  | JVal.jobj _, JVal.jnum _ | JVal.jobj _, JVal.jstr _
  | JVal.jobj _, JVal.jarr _ => isFalse (by intro hh; cases hh)
where
  /-- Decidable equality for lists of `JVal`. -/
  decEqList : (xs ys : List JVal) → Decidable (xs = ys)
  | [], [] => isTrue rfl
  | [], _ :: _ => isFalse (by intro hh; cases hh)
  | _ :: _, [] => isFalse (by intro hh; cases hh)
  | x :: xs, y :: ys =>
      match JVal.decEq x y, decEqList xs ys with
      | isTrue h1, isTrue h2 => isTrue (by rw [h1, h2])
      | isFalse h1, _ => isFalse (by intro hh; cases hh; exact h1 rfl)
      | _, isFalse h2 => isFalse (by intro hh; cases hh; exact h2 rfl)
  /-- Decidable equality for key/value lists. -/
  decEqKVList : (xs ys : List (String × JVal)) → Decidable (xs = ys)
  | [], [] => isTrue rfl
  | [], _ :: _ => isFalse (by intro hh; cases hh)
  | _ :: _, [] => isFalse (by intro hh; cases hh)
  | (k1, v1) :: xs, (k2, v2) :: ys =>
      match String.decEq k1 k2, JVal.decEq v1 v2, decEqKVList xs ys with
      | isTrue h0, isTrue h1, isTrue h2 => isTrue (by rw [h0, h1, h2])
      | isFalse h0, _, _ => isFalse (by intro hh; cases hh; exact h0 rfl)
      | _, isFalse h1, _ => isFalse (by intro hh; cases hh; exact h1 rfl)
      | _, _, isFalse h2 => isFalse (by intro hh; cases hh; exact h2 rfl)

instance : DecidableEq JVal := JVal.decEq

/-- The JS test `typeof v === 'object' && v !== null`: true exactly for
objects and arrays (JS `null` has typeof `'object'` but is excluded by
the null check in `mergeDictionary`). -/
def isObjectLike : JVal → Bool
  | JVal.jarr _ => true
  | JVal.jobj _ => true
  | _ => false

/-- JS truthiness of a JSON value (`NaN` is not representable in
JSON and is not modelled). -/
def jsTruthy : JVal → Bool
  | JVal.jnull => false
  | JVal.jbool b => b
  | JVal.jnum n => n ≠ 0
  | JVal.jstr s => s ≠ ""
  | JVal.jarr _ => true
  | JVal.jobj _ => true

/-- First-match association lookup (JS object property read). -/
def lookupAssoc : List (String × JVal) → String → Option JVal
  | [], _ => none
  | (k2, v) :: rest, k => if k2 = k then some v else lookupAssoc rest k

/-- The numeric value of a decimal digit character, if it is one. -/
def charDigit? (c : Char) : Option Nat :=
  if '0' ≤ c ∧ c ≤ '9' then some (c.toNat - '0'.toNat) else none

/-- Parse a non-empty run of decimal digits. -/
def digitsToNat? : List Char → Nat → Option Nat
  | [], acc => some acc
  | c :: cs, acc =>
      match charDigit? c with
      | some d => digitsToNat? cs (acc * 10 + d)
      | none => none

/-- A JS array index: a string that is the canonical decimal
representation of a natural number (the property keys under which JS
stores array elements). -/
def arrayIndex? (s : String) : Option Nat :=
  match s.data with
  | [] => none
  | cs =>
      match digitsToNat? cs 0 with
      | some n => if Nat.repr n = s then some n else none
      | none => none

/-- Read an own property: assoc lookup on objects; on arrays, a numeric
index inside bounds. -/
def getKey : JVal → String → Option JVal
  | JVal.jobj kvs, k => lookupAssoc kvs k
  | JVal.jarr xs, k =>
      match arrayIndex? k with
      | some i => xs.get? i
      | none => none
  | _, _ => none

/-- Replace the value of the first occurrence of a key in an assoc
list, or append the pair if the key is absent (JS object property
write). -/
def upsert : List (String × JVal) → String → JVal → List (String × JVal)
  | [], k, v => [(k, v)]
  | (k2, v2) :: rest, k, v =>
      if k2 = k then (k2, v) :: rest else (k2, v2) :: upsert rest k v

/-- Write index `i` of an array, padding with `null` when the index is
past the end (a JS sparse-array hole serializes as `null`). -/
def setIdx : List JVal → Nat → JVal → List JVal
  | _ :: rest, 0, v => v :: rest
  | x :: rest, Nat.succ i, v => x :: setIdx rest i v
  | [], 0, v => [v]
  | [], Nat.succ i, v => JVal.jnull :: setIdx [] i v

/-- Write an own property: upsert on objects; numeric-index write on
arrays.  A non-numeric key on an array would create an expando that
`JSON.stringify` drops, so it is a no-op in the JSON-value domain.
`mergeDictionary` only ever writes into values that passed the
object-likeness test, so the primitive case is unreachable there. -/
def setKey : JVal → String → JVal → JVal
  | JVal.jobj kvs, k, v => JVal.jobj (upsert kvs k v)
  | JVal.jarr xs, k, v =>
      match arrayIndex? k with
      | some i => JVal.jarr (setIdx xs i v)
      | none => JVal.jarr xs
  | t, _, _ => t

/-- `mergeDictionary(target, source)` from `util.ts` lines 179-191, as
a function returning the mutated target.  `mergeVal` dispatches on the
source: `for (const key in source)` enumerates an object's keys in
order, and an array's indices `"0"`, `"1"`, …; for each key, when the
target has the key and both values are object-like it recurses,
otherwise it assigns `target[key] = source[key]`.  A non-object-like
source has no enumerable own keys, so the target is returned unchanged
in the JS code; that case is unreachable here because `mergeVal` is
only invoked on object-like sources. -/
def mergeVal : JVal → JVal → JVal
  | t, JVal.jobj kvs => mergeEntryList t kvs
  | t, JVal.jarr xs => mergeArrEntries t 0 xs
  | t, _ => t
where
  /-- Fold the source object's key/value pairs into the target. -/
  mergeEntryList : JVal → List (String × JVal) → JVal
  | t, [] => t
  | t, (k, sv) :: rest =>
      let tv := getKey t k
      let newv :=
        if (tv.map isObjectLike).getD false && isObjectLike sv then
          mergeVal (tv.getD JVal.jnull) sv
        else sv
      mergeEntryList (setKey t k newv) rest
  /-- Fold the source array's indexed elements into the target. -/
  mergeArrEntries : JVal → Nat → List JVal → JVal
  | t, _, [] => t
  | t, i, sv :: rest =>
      let k := Nat.repr i
      let tv := getKey t k
      let newv :=
        if (tv.map isObjectLike).getD false && isObjectLike sv then
          mergeVal (tv.getD JVal.jnull) sv
        else sv
      mergeArrEntries (setKey t k newv) (i + 1) rest

/-- `mergeMetadata` from `util.ts` lines 209-236, restricted to the
plain-value inputs `lockFieldsAsync` passes it (the function-item
branch just awaits the function and merges its returned dictionary the
same way): start from `{}` and left-fold, merging items whose JS typeof
is `'object'` (for a `null` item `for..in` iterates zero times, leaving
the accumulator unchanged) and ignoring, with a log, everything else. -/
def mergeMetadataList (l : List JVal) : JVal :=
  l.foldl (fun acc item =>
    if isObjectLike item then mergeVal acc item else acc) (JVal.jobj [])

/-! ## Event timestamping (src/util.ts, `timestampEvent`, lines 121-135) -/

/-- The concrete values `timestampEvent` stamps on one call:
`new Date().toISOString()`, `Date.now()`, `Date()`, the session event
counter, the per-process session tag, and the cached browser tag. -/
structure StampInfo where
  isoTs : JVal
  tsVal : JVal
  humanTs : JVal
  sessionIndexVal : JVal
  sessionTagVal : JVal
  browserTagVal : JVal

/-- Write the stamped keys into the metadata object: `iso_ts` always;
`ts`, `human_ts`, `sessionIndex`, `sessionTag`, `browserTag` only when
verbose mode is on. -/
def stampMetadata (verbose : Bool) (st : StampInfo) (md : JVal) : JVal :=
  let m1 := setKey md "iso_ts" st.isoTs
  if verbose then
    setKey (setKey (setKey (setKey (setKey m1 "ts" st.tsVal)
      "human_ts" st.humanTs) "sessionIndex" st.sessionIndexVal)
      "sessionTag" st.sessionTagVal) "browserTag" st.browserTagVal
  else m1

/-- The keys `timestampEvent` may write inside `metadata`. -/
def stampedKeys (verbose : Bool) : List String :=
  if verbose then
    ["iso_ts", "ts", "human_ts", "sessionIndex", "sessionTag", "browserTag"]
  else ["iso_ts"]

/-- `timestampEvent(event)` from `util.ts` lines 121-135 on a top-level
event object: if `event.metadata` is falsy (absent, `null`, `false`,
`0`, `""`) it is replaced by `{}` first; then the stamp keys are
assigned on it.  When `metadata` is a truthy primitive the property
assignment throws a strict-mode TypeError before mutating anything, so
the event is returned unchanged together with the error. -/
def timestampEvent (verbose : Bool) (st : StampInfo)
    (e : List (String × JVal)) : Except Unit (List (String × JVal)) :=
  let md0 := lookupAssoc e "metadata"
  let mdEff : JVal :=
    match md0 with
    | some v => if jsTruthy v then v else JVal.jobj []
    | none => JVal.jobj []
  if isObjectLike mdEff then
    Except.ok (upsert e "metadata" (stampMetadata verbose st mdEff))
  else Except.error ()

/-- The event after `timestampEvent`: its mutated form on success, and
its unchanged form when the strict-mode TypeError fired (the throw
happens before any mutation). -/
def timestampEventRun (verbose : Bool) (st : StampInfo)
    (e : List (String × JVal)) : List (String × JVal) :=
  match timestampEvent verbose st e with
  | Except.ok e2 => e2
  | Except.error _ => e

/-! ## Initialization orchestrator states (src/loEvent.ts) -/

/-- `INIT_STATES` from `loEvent.ts`. -/
inductive InitState where
  | NOT_STARTED
  | IN_PROGRESS
  | LOGGERS_READY
  | READY
  | ERROR
deriving DecidableEq, Repr

/-- A sink as `initializeLoggers` sees it: whether it has an `init()`
hook, and, when it does, that hook's outcome. -/
structure SinkInit where
  initResult : Option (Except String Unit)

/-- Whether an `Except` is an error. -/
def isErrResult : Except ε β → Bool
  | Except.error _ => true
  | Except.ok _ => false

/-- `initializeLoggers` from `loEvent.ts` lines 45-59: filter the sinks
with an `init` hook, call them all, and `Promise.all` the results —
if any single one fails the whole pipeline state becomes `ERROR`
(even when the others succeeded), otherwise `LOGGERS_READY`. -/
def initializeLoggers (sinks : List SinkInit) : InitState :=
  if (sinks.filterMap SinkInit.initResult).any (fun r => isErrResult r) then
    InitState.ERROR
  else InitState.LOGGERS_READY

/-- The final pipeline step of `go()` (`loEvent.ts` lines 178-189):
if the state is `ERROR`, report and return without starting the
dequeue loop; otherwise transition to `READY` and start the main
queue's dequeue loop.  The boolean records whether
`queue.startDequeueLoop` was invoked. -/
def goStep (st : InitState) : InitState × Bool :=
  if st = InitState.ERROR then (st, false) else (InitState.READY, true)

/-! ## Storage capability (src/browserStorage.ts) -/

/-- The `keys` argument of the storage `get` capability:
`string | string[] | null`. -/
inductive StorageKeys where
  | one (k : String)
  | many (ks : List String)
  | nullKeys
deriving DecidableEq, Repr

/-- `thunkStorage.get` from `browserStorage.ts` lines 37-53, returning
the map passed to the callback.  An array of keys selects the present
ones; a single string key likewise; anything else (i.e. `null`) copies
the whole backing map. -/
def thunkGet (data : List (String × JVal)) : StorageKeys → List (String × JVal)
  | StorageKeys.many ks =>
      ks.foldl (fun acc k =>
        match lookupAssoc data k with
        | some v => acc ++ [(k, v)]
        | none => acc) []
  | StorageKeys.one k =>
      match lookupAssoc data k with
      | some v => [(k, v)]
      | none => []
  | StorageKeys.nullKeys => data

/-- The `get` produced by `getWithCallback(getItem)` from
`browserStorage.ts` lines 61-73 (used to wrap `localStorage`),
returning the map passed to the callback.  A single string is wrapped
in an array; then the loop runs over `items ?? []` — so for `null`
keys it iterates over the empty array and the callback receives the
empty map.  Each present key is read with `getItem`, which yields JS
`null` for absent keys. -/
def getWithCallback (getItem : String → Option JVal) :
    StorageKeys → List (String × JVal)
  | StorageKeys.one k => [(k, (getItem k).getD JVal.jnull)]
  | StorageKeys.many ks => ks.map (fun k => (k, (getItem k).getD JVal.jnull))
  | StorageKeys.nullKeys => []

/-- Iterated `disabler.retry()` calls: call `retry`, then call it again
from the state and time the previous call left behind, `n + 1` times in
total. -/
def retryCalls (mem : DisablerState) (stored : Option DisablerState)
    (now : Int) : Nat → RetryResult
  | 0 => retry mem stored now
  | Nat.succ n =>
      let r := retryCalls mem stored now n
      retry r.mem r.stored r.timeAfter

/-! ## Helper lemmas -/

/-- Looking a key up after an upsert: the upserted key reads the new
value, every other key is unchanged. -/
theorem lookupAssoc_upsert (kvs : List (String × JVal)) (k2 k : String)
    (v : JVal) :
    lookupAssoc (upsert kvs k2 v) k
      = if k2 = k then some v else lookupAssoc kvs k := by
  induction kvs with
  | nil => simp [upsert, lookupAssoc]
  | cons kv rest ih =>
    obtain ⟨k3, v3⟩ := kv
    by_cases h3 : k3 = k2
    · subst h3
      by_cases hk : k3 = k <;> simp [upsert, lookupAssoc, hk]
    · by_cases hk : k3 = k
      · subst hk
        have : ¬(k2 = k3) := fun h => h3 h.symm
        simp [upsert, lookupAssoc, h3, this]
      · simp [upsert, lookupAssoc, h3, hk, ih]

/-! ## C7 — reconnect backoff -/

/-- C7: the transport's reconnect delay satisfies
`delay(n) = min(1000 * 2 ^ n, 900000)` for every failure count `n`, is
monotonically non-decreasing in `n`, and equals exactly `900000` for
every `n ≥ 10` (`calculateExponentialBackoff`,
`websocketLogger.ts` lines 65-67). -/
theorem backoff_monotone_cap (n : Nat) :
    calculateExponentialBackoff n = min (1000 * 2 ^ n) 900000
    ∧ calculateExponentialBackoff n ≤ calculateExponentialBackoff (n + 1)
    ∧ (10 ≤ n → calculateExponentialBackoff n = 900000) := by
  refine ⟨rfl, ?_, ?_⟩
  · have h1 : 1000 * 2 ^ n ≤ 1000 * 2 ^ (n + 1) :=
      Nat.mul_le_mul_left _ (Nat.pow_le_pow_right (by norm_num) (Nat.le_succ n))
    exact min_le_min h1 le_rfl
  · intro hn
    have h2 : (2 : Nat) ^ 10 ≤ 2 ^ n := Nat.pow_le_pow_right (by norm_num) hn
    have h3 : (900000 : Nat) ≤ 1000 * 2 ^ n := by
      calc (900000 : Nat) ≤ 1000 * 2 ^ 10 := by norm_num
        _ ≤ 1000 * 2 ^ n := Nat.mul_le_mul_left _ h2
    unfold calculateExponentialBackoff
    omega

/-- C7 witness: at `n = 12` the hypothesis `10 ≤ n` holds and the delay
is exactly the cap. -/
theorem backoff_monotone_cap_witness :
    (10 ≤ 12 ∧ calculateExponentialBackoff 12 = 900000)
    ∧ calculateExponentialBackoff 3 = min (1000 * 2 ^ 3) 900000 :=
  ⟨⟨by norm_num, (backoff_monotone_cap 12).2.2 (by norm_num)⟩,
    (backoff_monotone_cap 3).1⟩

/-! ## C3 — `startDequeueLoop` may only be called once -/

/-- C3: the constructor wraps `startDequeueLoop` with `util.once`
(part_002 line 42), so the first call runs the wrapped function and any
second call on the same instance raises an error instead of silently
doing nothing (`once`, `util.ts` lines 317-328): starting from the
fresh `run = false` flag, the first call returns the wrapped function's
result and every call after it throws. -/
theorem startDequeueLoop_once {α β : Type} (f : α → β) (x y : α) :
    (onceCall f false x).2 = Except.ok (f x)
    ∧ (onceCall f (onceCall f false x).1 y).2
        = Except.error
          "Error! Function was called more than once! This should never happen" := by
  constructor
  · rfl
  · rfl

/-! ## C9 — storage `get(null)` -/

/-- C9 counterexample: the claim fails on the `getWithCallback`-wrapped
backends (`browserStorage.ts` lines 61-73, used for `localStorage`).
With a backing store holding the pair `("a", "v")` (its `getItem`
returns it), `get(null, callback)` invokes the callback with the empty
map, which does not contain the stored pair. -/
theorem storage_get_null_counterexample :
    getWithCallback
        (fun k => if k = "a" then some (JVal.jstr "v") else none)
        StorageKeys.nullKeys = []
    ∧ ("a", JVal.jstr "v") ∉
        getWithCallback
          (fun k => if k = "a" then some (JVal.jstr "v") else none)
          StorageKeys.nullKeys := by
  constructor
  · rfl
  · simp [getWithCallback]

/-- C9 amended: `thunkStorage.get(null, callback)` passes the callback
a copy of the whole backing map (every stored key/value pair), but the
`get` functions produced by `getWithCallback` (the `localStorage`
compatibility wrappers) pass the callback the empty map when the keys
argument is `null`. -/
theorem storage_get_null_amended (data : List (String × JVal))
    (g : String → Option JVal) :
    thunkGet data StorageKeys.nullKeys = data
    ∧ getWithCallback g StorageKeys.nullKeys = [] :=
  ⟨rfl, rfl⟩

/-! ## C5 — metadata deep merge -/

/-- C5 counterexample: arrays are not opaque under `mergeDictionary`.
Arrays pass the JS `typeof v === 'object' && v !== null` test, so when
the existing value `[1, 2]` and the incoming value `[9]` are both
arrays the merge recurses index-wise and produces `[9, 2]` — not the
wholesale replacement `[9]` the claim requires. -/
theorem mergeDictionary_array_counterexample :
    mergeVal (JVal.jobj [("a", JVal.jarr [JVal.jnum 1, JVal.jnum 2])])
        (JVal.jobj [("a", JVal.jarr [JVal.jnum 9])])
      = JVal.jobj [("a", JVal.jarr [JVal.jnum 9, JVal.jnum 2])]
    ∧ mergeVal (JVal.jobj [("a", JVal.jarr [JVal.jnum 1, JVal.jnum 2])])
        (JVal.jobj [("a", JVal.jarr [JVal.jnum 9])])
      ≠ JVal.jobj [("a", JVal.jarr [JVal.jnum 9])] := by
  have hval :
      mergeVal (JVal.jobj [("a", JVal.jarr [JVal.jnum 1, JVal.jnum 2])])
          (JVal.jobj [("a", JVal.jarr [JVal.jnum 9])])
        = JVal.jobj [("a", JVal.jarr [JVal.jnum 9, JVal.jnum 2])] := by
    simp [mergeVal, mergeVal.mergeEntryList, mergeVal.mergeArrEntries,
      getKey, lookupAssoc, setKey, upsert, setIdx, isObjectLike]
    rfl
  refine ⟨hval, ?_⟩
  rw [hval]
  decide

/-! ## C2 — `disabler.retry()` -/

/-- Helper: the non-permanent branch of `retry` in closed form. -/
theorem retry_reset (mem : DisablerState) (stored : Option DisablerState)
    (now : Int) (h : mem.expiration ≠ some PERMANENT) :
    retry mem stored now
      = ⟨true, DISABLER_DEFAULTS, some DISABLER_DEFAULTS,
          if stored = some DISABLER_DEFAULTS then 0 else 1,
          max now (expirationValue mem.expiration)⟩ := by
  unfold retry
  rw [if_neg h]
  cases stored with
  | none =>
    simp
    omega
  | some cv =>
    by_cases hc : cv = DISABLER_DEFAULTS
    · subst hc
      simp
      omega
    · simp [hc]
      omega

/-- C2: `disabler.retry()` (`disabler.ts` lines 110-133).  When the
in-memory `expiration` is `PERMANENT` the call returns `false` and
leaves everything unchanged — so every later call returns `false` as
long as that state holds (the iterated calls are all identical).
Otherwise the call suspends until the expiration has elapsed (it
returns at `max(now, expiration)`), resets `action = TRANSMIT`,
`expiration = null`, persists the reset record only when the stored
record differs from it, and returns `true`; consequently two
consecutive calls made after the expiration has already elapsed perform
at most one storage write between them. -/
theorem disabler_retry_policy (mem : DisablerState)
    (stored : Option DisablerState) (now : Int) :
    (mem.expiration = some PERMANENT →
      retry mem stored now = ⟨false, mem, stored, 0, now⟩
      ∧ ∀ n, retryCalls mem stored now n = ⟨false, mem, stored, 0, now⟩)
    ∧ (mem.expiration ≠ some PERMANENT →
      retry mem stored now
        = ⟨true, DISABLER_DEFAULTS, some DISABLER_DEFAULTS,
            if stored = some DISABLER_DEFAULTS then 0 else 1,
            max now (expirationValue mem.expiration)⟩)
    ∧ (mem.expiration ≠ some PERMANENT →
      expirationValue mem.expiration ≤ now →
      (retry mem stored now).writes
        + (retry (retry mem stored now).mem (retry mem stored now).stored
            (retry mem stored now).timeAfter).writes ≤ 1) := by
  refine ⟨?_, retry_reset mem stored now, ?_⟩
  · intro h
    have hbase : retry mem stored now = ⟨false, mem, stored, 0, now⟩ := by
      unfold retry
      rw [if_pos h]
    refine ⟨hbase, ?_⟩
    intro n
    induction n with
    | zero => exact hbase
    | succ n ih =>
      show retry (retryCalls mem stored now n).mem
          (retryCalls mem stored now n).stored
          (retryCalls mem stored now n).timeAfter
        = ⟨false, mem, stored, 0, now⟩
      rw [ih]
      exact hbase
  · intro h _
    rw [retry_reset mem stored now h]
    rw [retry_reset DISABLER_DEFAULTS (some DISABLER_DEFAULTS) _
      (by simp [DISABLER_DEFAULTS, PERMANENT])]
    by_cases hs : stored = some DISABLER_DEFAULTS <;> simp [hs]

/-- C2 witness: a permanently disabled state returns `false`; a lapsed
temporary block (expiration 50, now 100) resets with one write; the
immediately following call performs no further write. -/
theorem disabler_retry_policy_witness :
    ((⟨EventAction.DROP, some PERMANENT⟩ : DisablerState).expiration
        = some PERMANENT
      ∧ retry ⟨EventAction.DROP, some PERMANENT⟩ none 0
          = ⟨false, ⟨EventAction.DROP, some PERMANENT⟩, none, 0, 0⟩)
    ∧ ((⟨EventAction.MAINTAIN, some 50⟩ : DisablerState).expiration
        ≠ some PERMANENT
      ∧ retry ⟨EventAction.MAINTAIN, some 50⟩ none 100
          = ⟨true, DISABLER_DEFAULTS, some DISABLER_DEFAULTS, 1, 100⟩
      ∧ expirationValue (some 50) ≤ 100
      ∧ (retry ⟨EventAction.MAINTAIN, some 50⟩ none 100).writes
          + (retry (retry ⟨EventAction.MAINTAIN, some 50⟩ none 100).mem
              (retry ⟨EventAction.MAINTAIN, some 50⟩ none 100).stored
              (retry ⟨EventAction.MAINTAIN, some 50⟩ none 100).timeAfter).writes
          ≤ 1) :=
  ⟨⟨rfl,
      ((disabler_retry_policy ⟨EventAction.DROP, some PERMANENT⟩ none 0).1
        rfl).1⟩,
    ⟨by decide,
      by
        have := (disabler_retry_policy
          ⟨EventAction.MAINTAIN, some 50⟩ none 100).2.1 (by decide)
        simpa using this,
      by decide,
      (disabler_retry_policy ⟨EventAction.MAINTAIN, some 50⟩ none 100).2.2
        (by decide) (by decide)⟩⟩

/-! ## C4 — per-item delivery faults -/

/-- C4: in the dequeue loop (part_002 lines 88-97), as long as
`shouldDequeue` keeps allowing iterations, every dequeued non-null item
is passed to `onDequeue` exactly once and in order
(`attempted = the non-null dequeued items`); a handler fault is caught
and reported via `onError` (one `itemFaultMsg` per faulting non-null
item, in order) and the loop continues rather than exiting
(`stopped = false` — in particular every later item is still
attempted); the failed item is not re-enqueued and is never given to
`onDequeue` again (it occurs in `attempted` exactly as often as it was
dequeued). -/
theorem dequeue_loop_item_fault (iters : List (LoopIter α))
    (h : ∀ it ∈ iters, it.should = Except.ok true) :
    (runLoopIters iters).attempted = iters.filterMap LoopIter.item
    ∧ (runLoopIters iters).stopped = false
    ∧ (runLoopIters iters).errors
        = (iters.filter
            (fun it => it.item.isSome && isErrResult it.handler)).map
            (fun _ => itemFaultMsg) := by
  induction iters with
  | nil => exact ⟨rfl, rfl, rfl⟩
  | cons it rest ih =>
    have hs : it.should = Except.ok true := h it (List.mem_cons_self it rest)
    obtain ⟨ih1, ih2, ih3⟩ :=
      ih (fun it2 hit => h it2 (List.mem_cons_of_mem _ hit))
    cases hitem : it.item with
    | none =>
      simp [runLoopIters, hs, hitem, ih1, ih2, ih3]
    | some a =>
      cases hh : it.handler with
      | ok u =>
        simp [runLoopIters, hs, hitem, hh, ih1, ih2, ih3, isErrResult]
      | error e =>
        simp [runLoopIters, hs, hitem, hh, ih1, ih2, ih3, isErrResult]

/-- C4 witness: three non-null items where the middle handler faults:
all three are attempted in order, one fault is reported, and the loop
does not stop. -/
theorem dequeue_loop_item_fault_witness :
    (∀ it ∈ [(⟨Except.ok true, some 1, Except.ok ()⟩ : LoopIter Nat),
             ⟨Except.ok true, some 2, Except.error "boom"⟩,
             ⟨Except.ok true, some 3, Except.ok ()⟩],
        it.should = Except.ok true)
    ∧ (runLoopIters [(⟨Except.ok true, some 1, Except.ok ()⟩ : LoopIter Nat),
        ⟨Except.ok true, some 2, Except.error "boom"⟩,
        ⟨Except.ok true, some 3, Except.ok ()⟩]).attempted = [1, 2, 3]
    ∧ (runLoopIters [(⟨Except.ok true, some 1, Except.ok ()⟩ : LoopIter Nat),
        ⟨Except.ok true, some 2, Except.error "boom"⟩,
        ⟨Except.ok true, some 3, Except.ok ()⟩]).stopped = false
    ∧ (runLoopIters [(⟨Except.ok true, some 1, Except.ok ()⟩ : LoopIter Nat),
        ⟨Except.ok true, some 2, Except.error "boom"⟩,
        ⟨Except.ok true, some 3, Except.ok ()⟩]).errors = [itemFaultMsg] := by
  have happ : ∀ it ∈ [(⟨Except.ok true, some 1, Except.ok ()⟩ : LoopIter Nat),
      ⟨Except.ok true, some 2, Except.error "boom"⟩,
      ⟨Except.ok true, some 3, Except.ok ()⟩],
      it.should = Except.ok true := by
    intro it hit
    fin_cases hit <;> rfl
  obtain ⟨h1, h2, h3⟩ := dequeue_loop_item_fault _ happ
  exact ⟨happ, by rw [h1]; rfl, h2, by rw [h3]; rfl⟩

/-! ## C8 — initialization failures gate the dequeue loop -/

/-- C8: `initializeLoggers` (`loEvent.ts` lines 45-59) awaits every
sink's optional `init()` via `Promise.all`: if any single hook fails
the pipeline state becomes `ERROR` even when every other sink
succeeded, and the final step of `go()` (`loEvent.ts` lines 178-189)
then reports and returns without starting the main queue's dequeue
loop; if every hook succeeds the state becomes `LOGGERS_READY`, and
`go()` transitions it to `READY` and starts the loop. -/
theorem init_failure_blocks_go (sinks : List SinkInit) :
    ((∃ l ∈ sinks, ∃ e : String, l.initResult = some (Except.error e)) →
      initializeLoggers sinks = InitState.ERROR
      ∧ goStep (initializeLoggers sinks) = (InitState.ERROR, false))
    ∧ ((∀ l ∈ sinks, ∀ e : String, l.initResult ≠ some (Except.error e)) →
      initializeLoggers sinks = InitState.LOGGERS_READY
      ∧ goStep (initializeLoggers sinks) = (InitState.READY, true)) := by
  constructor
  · rintro ⟨l, hl, e, he⟩
    have hany : (sinks.filterMap SinkInit.initResult).any
        (fun r => isErrResult r) = true := by
      refine List.any_eq_true.mpr ⟨Except.error e, ?_, rfl⟩
      exact List.mem_filterMap.mpr ⟨l, hl, he⟩
    constructor
    · simp [initializeLoggers, hany]
    · simp [initializeLoggers, hany, goStep]
  · intro hok
    have hany : (sinks.filterMap SinkInit.initResult).any
        (fun r => isErrResult r) = false := by
      rw [List.any_eq_false]
      rintro r hr
      obtain ⟨l, hl, he⟩ := List.mem_filterMap.mp hr
      cases r with
      | ok u => simp [isErrResult]
      | error e => exact absurd he (hok l hl e)
    constructor
    · simp [initializeLoggers, hany]
    · simp [initializeLoggers, hany, goStep]

/-- C8 witness: one failing sink among succeeding ones yields `ERROR`
and no loop start; all-succeeding sinks yield `LOGGERS_READY` and the
loop starts. -/
theorem init_failure_blocks_go_witness :
    ((∃ l ∈ [SinkInit.mk (some (Except.ok ())),
             SinkInit.mk (some (Except.error "bad")),
             SinkInit.mk none], ∃ e : String,
        l.initResult = some (Except.error e))
      ∧ initializeLoggers [SinkInit.mk (some (Except.ok ())),
          SinkInit.mk (some (Except.error "bad")),
          SinkInit.mk none] = InitState.ERROR
      ∧ goStep (initializeLoggers [SinkInit.mk (some (Except.ok ())),
          SinkInit.mk (some (Except.error "bad")),
          SinkInit.mk none]) = (InitState.ERROR, false))
    ∧ ((∀ l ∈ [SinkInit.mk (some (Except.ok ())), SinkInit.mk none],
          ∀ e : String, l.initResult ≠ some (Except.error e))
      ∧ initializeLoggers [SinkInit.mk (some (Except.ok ())),
          SinkInit.mk none] = InitState.LOGGERS_READY
      ∧ goStep (initializeLoggers [SinkInit.mk (some (Except.ok ())),
          SinkInit.mk none]) = (InitState.READY, true)) := by
  have hex : ∃ l ∈ [SinkInit.mk (some (Except.ok ())),
      SinkInit.mk (some (Except.error "bad")), SinkInit.mk none],
      ∃ e : String, l.initResult = some (Except.error e) :=
    ⟨SinkInit.mk (some (Except.error "bad")), by simp, "bad", rfl⟩
  have hok : ∀ l ∈ [SinkInit.mk (some (Except.ok ())), SinkInit.mk none],
      ∀ e : String, l.initResult ≠ some (Except.error e) := by
    intro l hl e
    fin_cases hl <;> simp
  obtain ⟨ha, hb⟩ := (init_failure_blocks_go _).1 hex
  obtain ⟨hc, hd⟩ := (init_failure_blocks_go _).2 hok
  exact ⟨⟨hex, ha, hb⟩, ⟨hok, hc, hd⟩⟩

/-! ## C10 — `timestampEvent` mutates only `metadata` -/

/-- C10: `timestampEvent` (`util.ts` lines 121-135) mutates only the
`metadata` field of the event it is given: every top-level field other
than `metadata` reads the same afterwards, and when the event came in
with a `metadata` object, every pre-existing key of it other than the
stamped ones (`iso_ts`, plus `ts`, `human_ts`, `sessionIndex`,
`sessionTag`, `browserTag` in verbose mode) still reads its old
value — the new `metadata` is exactly the old object with the stamp
keys written. -/
theorem timestampEvent_frame (verbose : Bool) (st : StampInfo)
    (e : List (String × JVal)) :
    (∀ k, k ≠ "metadata" →
      lookupAssoc (timestampEventRun verbose st e) k = lookupAssoc e k)
    ∧ (∀ mkvs, lookupAssoc e "metadata" = some (JVal.jobj mkvs) →
        lookupAssoc (timestampEventRun verbose st e) "metadata"
          = some (stampMetadata verbose st (JVal.jobj mkvs))
        ∧ ∀ k2, k2 ∉ stampedKeys verbose →
            getKey (stampMetadata verbose st (JVal.jobj mkvs)) k2
              = getKey (JVal.jobj mkvs) k2) := by
  constructor
  · intro k hk
    have hk2 : ¬("metadata" = k) := fun h => hk h.symm
    unfold timestampEventRun timestampEvent
    cases hmd : lookupAssoc e "metadata" with
    | none => simp [lookupAssoc_upsert, hk2, isObjectLike]
    | some v =>
      by_cases htr : jsTruthy v
      · by_cases hobj : isObjectLike v
        · simp [htr, hobj, lookupAssoc_upsert, hk2]
        · simp [htr, hobj]
      · simp [htr, lookupAssoc_upsert, hk2, isObjectLike]
  · intro mkvs hmd
    constructor
    · unfold timestampEventRun timestampEvent
      simp [hmd, jsTruthy, isObjectLike, lookupAssoc_upsert]
    · intro k2 hk2
      cases verbose with
      | false =>
        simp [stampedKeys] at hk2
        simp [stampMetadata, setKey, getKey, lookupAssoc_upsert,
          Ne.symm hk2]
      | true =>
        simp [stampedKeys] at hk2
        obtain ⟨h1, h2, h3, h4, h5, h6⟩ := hk2
        simp [stampMetadata, setKey, getKey, lookupAssoc_upsert,
          Ne.symm h1, Ne.symm h2, Ne.symm h3, Ne.symm h4, Ne.symm h5,
          Ne.symm h6]

/-- C10 witness: a verbose-mode event with one extra top-level field
and one pre-existing metadata key: the top-level field and the
metadata key read unchanged after stamping. -/
theorem timestampEvent_frame_witness :
    ("data" ≠ "metadata"
      ∧ lookupAssoc
          (timestampEventRun true
            ⟨JVal.jstr "I", JVal.jnum 5, JVal.jstr "H", JVal.jnum 0,
              JVal.jstr "S", JVal.jstr "B"⟩
            [("data", JVal.jstr "stuff"),
             ("metadata", JVal.jobj [("keep", JVal.jnum 1)])]) "data"
        = lookupAssoc
            [("data", JVal.jstr "stuff"),
             ("metadata", JVal.jobj [("keep", JVal.jnum 1)])] "data")
    ∧ (lookupAssoc
          [("data", JVal.jstr "stuff"),
           ("metadata", JVal.jobj [("keep", JVal.jnum 1)])] "metadata"
        = some (JVal.jobj [("keep", JVal.jnum 1)])
      ∧ "keep" ∉ stampedKeys true
      ∧ getKey (stampMetadata true
            ⟨JVal.jstr "I", JVal.jnum 5, JVal.jstr "H", JVal.jnum 0,
              JVal.jstr "S", JVal.jstr "B"⟩
            (JVal.jobj [("keep", JVal.jnum 1)])) "keep"
          = getKey (JVal.jobj [("keep", JVal.jnum 1)]) "keep") := by
  have hth := timestampEvent_frame true
    ⟨JVal.jstr "I", JVal.jnum 5, JVal.jstr "H", JVal.jnum 0,
      JVal.jstr "S", JVal.jstr "B"⟩
    [("data", JVal.jstr "stuff"),
     ("metadata", JVal.jobj [("keep", JVal.jnum 1)])]
  refine ⟨⟨by decide, hth.1 "data" (by decide)⟩, rfl, by decide, ?_⟩
  exact (hth.2 [("keep", JVal.jnum 1)] rfl).2 "keep" (by decide)

/-! ## C1 and C6 — delivery order on the persistent backend and the
enqueue-while-parked short-circuit -/

/-- C1 (code bug): the persistent backend can deliver out of enqueue
order.  `startProcessing`'s `await` of `addItemToDB`/`nextItemFromDB`
resolves as soon as their synchronous bodies return — neither function
awaits its IndexedDB transaction — so with a dequeue and an enqueue of
item `1` dispatched back-to-back, the add transaction is created
(`nextItemPromise` is not yet parked), the earlier read transaction
then runs first, finds the store still empty and parks, and the add
deposits `1` into the store while the resolver is parked.  A later
enqueue of item `2` is handed directly to the parked resolver
(`addItemToDB` lines 121-125), and the next dequeue reads `1` from the
store: with every operation, transaction and row fully drained the
consumer has received `[2, 1]` although the items were enqueued in the
order `[1, 2]`.  This contradicts the claim, the spec's FIFO invariant
and its §4.2 statement that the loop "fully awaits its completion
against the store before starting the next" (clearly the intent of the
`await`), and the repository's FIFO tests — so the code, not the
claim, is at fault. -/
theorem fifo_violation_on_persistent_backend :
    idbRun (idbInit Nat)
        [IdbLabel.reqDeq, IdbLabel.enq 1, IdbLabel.dispatch,
         IdbLabel.dispatch, IdbLabel.idbTask, IdbLabel.idbTask,
         IdbLabel.enq 2, IdbLabel.dispatch, IdbLabel.reqDeq,
         IdbLabel.dispatch, IdbLabel.idbTask]
      = some ⟨[], [], [], false, false, [2, 1], 1⟩
    ∧ enqueuedOf
        [IdbLabel.reqDeq, IdbLabel.enq 1, IdbLabel.dispatch,
         IdbLabel.dispatch, IdbLabel.idbTask, IdbLabel.idbTask,
         IdbLabel.enq 2, IdbLabel.dispatch, IdbLabel.reqDeq,
         IdbLabel.dispatch, IdbLabel.idbTask]
      = [1, 2]
    ∧ ([2, 1] : List Nat) ≠ [1, 2] :=
  ⟨rfl, rfl, by decide⟩

/-- C6: whenever the dequeue resolver is parked (`nextItemPromise`
non-null — it was set by a read transaction whose cursor found the
store empty), dispatching a subsequent enqueue operation resolves that
parked dequeue directly with the enqueued item: the item is appended
to `delivered`, and the backing store is bypassed entirely — the store
contents, the `objectStore.add` write counter, and the list of pending
transactions are all unchanged by that enqueue, so the item is never
written to the store (`addItemToDB`, `indexeddbQueue.ts` lines
119-125, returning before the `objectStore.add` code is reached). -/
theorem enqueue_while_parked_bypasses_store {α : Type} (s : IdbState α)
    (x : α) (rest : List (DbOp α))
    (hq : s.opsQ = DbOp.enqOp x :: rest) (hp : s.parked = true) :
    idbStep s IdbLabel.dispatch
      = some { s with opsQ := rest, parked := false,
                      pendingDeq := false,
                      delivered := s.delivered ++ [x] } := by
  simp [idbStep, hq, idbDispatch, hp]

/-- C6 witness: the trace `dequeue; dispatch; read-callback; enqueue 7`
reaches a reachable parked state with a pending enqueue operation;
dispatching it delivers `7` directly, and the store, write counter and
pending-transaction list stay untouched (all empty). -/
theorem enqueue_while_parked_bypasses_store_witness :
    idbRun (idbInit Nat)
        [IdbLabel.reqDeq, IdbLabel.dispatch, IdbLabel.idbTask,
         IdbLabel.enq 7]
      = some ⟨[DbOp.enqOp 7], [], [], true, true, [], 0⟩
    ∧ (⟨[DbOp.enqOp 7], [], [], true, true, [], 0⟩ : IdbState Nat).opsQ
        = DbOp.enqOp 7 :: []
    ∧ (⟨[DbOp.enqOp 7], [], [], true, true, [], 0⟩ :
        IdbState Nat).parked = true
    ∧ idbStep (⟨[DbOp.enqOp 7], [], [], true, true, [], 0⟩ : IdbState Nat)
        IdbLabel.dispatch
      = some ⟨[], [], [], false, false, [7], 0⟩ :=
  ⟨rfl, rfl, rfl,
    enqueue_while_parked_bypasses_store
      (⟨[DbOp.enqOp 7], [], [], true, true, [], 0⟩ : IdbState Nat)
      7 [] rfl rfl⟩

/-! ## C5 amended — key-level behavior of the deep merge -/

/-- A key absent from an assoc list looks up to `none`. -/
theorem lookupAssoc_eq_none_of_notmem (svs : List (String × JVal))
    (k : String) (h : k ∉ svs.map Prod.fst) :
    lookupAssoc svs k = none := by
  induction svs with
  | nil => rfl
  | cons kv rest ih =>
    obtain ⟨k2, v2⟩ := kv
    simp only [List.map_cons, List.mem_cons] at h
    push_neg at h
    have : ¬(k2 = k) := fun hh => h.1 hh.symm
    simp [lookupAssoc, this, ih h.2]

/-- Folding a source object into the target leaves every key the
source does not mention unchanged. -/
theorem mergeEntryList_lookup_notmem (svs : List (String × JVal)) :
    ∀ (tkvs : List (String × JVal)) (k : String),
    lookupAssoc svs k = none →
    getKey (mergeVal.mergeEntryList (JVal.jobj tkvs) svs) k
      = lookupAssoc tkvs k := by
  induction svs with
  | nil =>
    intro tkvs k _
    simp [mergeVal.mergeEntryList, getKey]
  | cons kv rest ih =>
    intro tkvs k hk
    obtain ⟨k2, sv⟩ := kv
    have hne : ¬(k2 = k) := by
      by_contra hc
      simp [lookupAssoc, hc] at hk
    have hrest : lookupAssoc rest k = none := by
      simpa [lookupAssoc, hne] using hk
    rw [mergeVal.mergeEntryList]
    simp only [setKey]
    rw [ih _ k hrest, lookupAssoc_upsert]
    simp [hne]

/-- Folding a source object into the target: a key the source does
mention ends up as the incoming value, except that when both the
existing and the incoming values are object-like it ends up as their
recursive merge. -/
theorem mergeEntryList_lookup_mem (svs : List (String × JVal)) :
    ∀ (tkvs : List (String × JVal)) (k : String) (sv : JVal),
    (svs.map Prod.fst).Nodup →
    lookupAssoc svs k = some sv →
    getKey (mergeVal.mergeEntryList (JVal.jobj tkvs) svs) k
      = some (if ((lookupAssoc tkvs k).map isObjectLike).getD false
                  && isObjectLike sv then
                mergeVal ((lookupAssoc tkvs k).getD JVal.jnull) sv
              else sv) := by
  induction svs with
  | nil =>
    intro tkvs k sv _ hk
    simp [lookupAssoc] at hk
  | cons kv rest ih =>
    intro tkvs k sv hnd hk
    obtain ⟨k2, sv2⟩ := kv
    simp only [List.map_cons, List.nodup_cons] at hnd
    by_cases hke : k2 = k
    · subst hke
      have hsv : sv2 = sv := by
        simpa [lookupAssoc] using hk
      subst hsv
      have hrest : lookupAssoc rest k2 = none :=
        lookupAssoc_eq_none_of_notmem rest k2 hnd.1
      rw [mergeVal.mergeEntryList]
      simp only [setKey]
      rw [mergeEntryList_lookup_notmem rest _ k2 hrest, lookupAssoc_upsert]
      simp [getKey]
    · have hrest : lookupAssoc rest k = some sv := by
        simpa [lookupAssoc, hke] using hk
      rw [mergeVal.mergeEntryList]
      simp only [setKey]
      rw [ih _ k sv hnd.2 hrest, lookupAssoc_upsert]
      simp [hke]

/-- C5 amended: `lockFields` deep-merges its metadata fragments left to
right (`mergeMetadata` folds them into the accumulator in list order,
`util.ts` lines 209-236), and for every key of a fragment
(`mergeDictionary`, `util.ts` lines 179-191): a key the fragment does
not mention is unchanged; when both the existing and the incoming
values are object-like — a JS object **or array**, since arrays pass
the `typeof v === 'object' && v !== null` test — they are merged
recursively (index-wise for two arrays), and otherwise the incoming
value overwrites the existing one.  Arrays are therefore not opaque:
an incoming array replaces the existing value wholesale only when that
existing value is not itself object-like. -/
theorem mergeDictionary_key_merge (tkvs svs : List (String × JVal))
    (hnd : (svs.map Prod.fst).Nodup) (k : String) :
    (∀ l, mergeMetadataList (l ++ [JVal.jobj svs])
      = mergeVal (mergeMetadataList l) (JVal.jobj svs))
    ∧ (lookupAssoc svs k = none →
      getKey (mergeVal (JVal.jobj tkvs) (JVal.jobj svs)) k
        = getKey (JVal.jobj tkvs) k)
    ∧ (∀ sv, lookupAssoc svs k = some sv →
      getKey (mergeVal (JVal.jobj tkvs) (JVal.jobj svs)) k
        = some (if ((getKey (JVal.jobj tkvs) k).map isObjectLike).getD false
                    && isObjectLike sv then
                  mergeVal ((getKey (JVal.jobj tkvs) k).getD JVal.jnull) sv
                else sv)) := by
  refine ⟨?_, ?_, ?_⟩
  · intro l
    simp [mergeMetadataList, List.foldl_append, isObjectLike]
  · intro hk
    rw [mergeVal]
    exact mergeEntryList_lookup_notmem svs tkvs k hk
  · intro sv hk
    rw [mergeVal]
    simpa [getKey] using mergeEntryList_lookup_mem svs tkvs k sv hnd hk

/-- C5 amended witness: merging `{b: {d: 4}, e: 5}` into
`{a: 1, b: {c: 3}}`: key `a` is untouched, key `e` is overwritten in,
and key `b` — object-like on both sides — is merged recursively into
`{c: 3, d: 4}`. -/
theorem mergeDictionary_key_merge_witness :
    (([("b", JVal.jobj [("d", JVal.jnum 4)]), ("e", JVal.jnum 5)].map
        Prod.fst).Nodup
      ∧ lookupAssoc [("b", JVal.jobj [("d", JVal.jnum 4)]),
          ("e", JVal.jnum 5)] "a" = none
      ∧ getKey (mergeVal
          (JVal.jobj [("a", JVal.jnum 1), ("b", JVal.jobj [("c", JVal.jnum 3)])])
          (JVal.jobj [("b", JVal.jobj [("d", JVal.jnum 4)]),
            ("e", JVal.jnum 5)])) "a"
        = getKey (JVal.jobj [("a", JVal.jnum 1),
            ("b", JVal.jobj [("c", JVal.jnum 3)])]) "a")
    ∧ (lookupAssoc [("b", JVal.jobj [("d", JVal.jnum 4)]),
          ("e", JVal.jnum 5)] "b" = some (JVal.jobj [("d", JVal.jnum 4)])
      ∧ getKey (mergeVal
          (JVal.jobj [("a", JVal.jnum 1), ("b", JVal.jobj [("c", JVal.jnum 3)])])
          (JVal.jobj [("b", JVal.jobj [("d", JVal.jnum 4)]),
            ("e", JVal.jnum 5)])) "b"
        = some (mergeVal (JVal.jobj [("c", JVal.jnum 3)])
            (JVal.jobj [("d", JVal.jnum 4)]))) := by
  have hnd : (([("b", JVal.jobj [("d", JVal.jnum 4)]),
      ("e", JVal.jnum 5)]).map Prod.fst).Nodup := by decide
  have h1 := (mergeDictionary_key_merge
    [("a", JVal.jnum 1), ("b", JVal.jobj [("c", JVal.jnum 3)])]
    [("b", JVal.jobj [("d", JVal.jnum 4)]), ("e", JVal.jnum 5)] hnd "a").2.1
    (by rfl)
  have h2 := (mergeDictionary_key_merge
    [("a", JVal.jnum 1), ("b", JVal.jobj [("c", JVal.jnum 3)])]
    [("b", JVal.jobj [("d", JVal.jnum 4)]), ("e", JVal.jnum 5)] hnd "b").2.2
    (JVal.jobj [("d", JVal.jnum 4)]) (by rfl)
  refine ⟨⟨hnd, rfl, h1⟩, rfl, ?_⟩
  rw [h2]
  simp [getKey, lookupAssoc, isObjectLike]

end LoEvent
